import Mathlib

/-!
Shallow embedding of `src/work.py` (`TraderSentimentAnalysis`): a pandas
pipeline that loads a trade CSV and a fear/greed sentiment CSV, inner-joins
them on a derived calendar-date key, aggregates trader metrics, generates
insight strings, analyses sentiment transitions and exports a workbook.

Two tiers are used:
* a raw tier (`Cell`, `Row`, `DF`) embedding the dataframe-level column
  logic of the loaders and of `pd.merge` (rows are association lists from
  column names to cells, a null cell standing for pandas `NaN`/`NaT`);
* a typed tier (`MergedRow`, `FGRow`, `AnalysisState`) embedding the
  operations that consume the merged dataset (groupby aggregations,
  insight generation, transition analysis, export), with field types
  matching the columns those operations read.

Date parsing is external (pandas `to_datetime`); it is passed in as a
function `Cell → Option Timestamp`, `none` meaning the value is
unparseable.  `errors="coerce"` (trade loader) versus the default
`errors="raise"` (sentiment loader) is embedded explicitly.
-/

/-- A datetime value: calendar day index plus seconds within the day.
`.dt.date` truncation keeps only `day`. -/
structure Timestamp where
  day : Int
  tod : Nat
deriving DecidableEq

/-- A dataframe cell.  `null` stands for pandas `NaN`/`NaT`. -/
inductive Cell where
  | str (s : String)
  | num (q : ℚ)
  | dt (t : Timestamp)
  | date (d : Int)
  | null
deriving DecidableEq

/-- A dataframe row: association list from column name to cell. -/
abbrev Row := List (String × Cell)

/-- A dataframe: column names plus rows. -/
structure DF where
  cols : List String
  rows : List Row
deriving DecidableEq

/-- Overwrite (or append) the cell of column `k` in a row. -/
def setCell (r : Row) (k : String) (v : Cell) : Row :=
  if (r.lookup k).isSome then
    r.map (fun kv => if kv.1 = k then (k, v) else kv)
  else
    r ++ [(k, v)]

/-- `df[k] = f(row)`: per-row assignment of column `k`, adding the column
when absent (pandas column assignment). -/
def setColumn (df : DF) (k : String) (f : Row → Cell) : DF :=
  { cols := if k ∈ df.cols then df.cols else df.cols ++ [k],
    rows := df.rows.map (fun r => setCell r k (f r)) }

/-- `df.rename(columns=mapping)` on a single name. -/
def renameCol (mapping : List (String × String)) (c : String) : String :=
  (mapping.lookup c).getD c

/-- `df.rename(columns=mapping)` on a frame. -/
def renameDF (mapping : List (String × String)) (df : DF) : DF :=
  { cols := df.cols.map (renameCol mapping),
    rows := df.rows.map (fun r => r.map (fun kv => (renameCol mapping kv.1, kv.2))) }

/-- The fixed header-renaming map of `load_trader_data` (work.py lines 28-38). -/
def trade_column_mapping : List (String × String) :=
  [("Account", "account"), ("Coin", "symbol"), ("Execution Price", "execution_price"),
   ("Size Tokens", "size"), ("Side", "side"), ("Timestamp IST", "time"),
   ("Start Position", "start_position"), ("Direction", "event"),
   ("Closed PnL", "closedPnL")]

/-- The renaming map of `load_fear_greed_data` (work.py lines 50-53). -/
def fg_column_mapping : List (String × String) :=
  [("date", "Date"), ("classification", "Classification")]

/-- `pd.to_datetime(cell, errors="coerce")`: a null stays null (`NaT`), an
already-datetime cell passes through, anything else goes through the
external parser and becomes null when unparseable. -/
def toDatetimeCoerce (parse : Cell → Option Timestamp) (c : Cell) : Cell :=
  match c with
  | Cell.null => Cell.null
  | Cell.dt t => Cell.dt t
  | c =>
    match parse c with
    | some t => Cell.dt t
    | none => Cell.null

/-- `pd.to_datetime(cell)` with the default `errors="raise"`: an
unparseable non-null value raises a `ValueError`. -/
def toDatetimeRaise (parse : Cell → Option Timestamp) (c : Cell) : Except String Cell :=
  match c with
  | Cell.null => Except.ok Cell.null
  | Cell.dt t => Except.ok (Cell.dt t)
  | c =>
    match parse c with
    | some t => Except.ok (Cell.dt t)
    | none => Except.error "ValueError: unable to parse date"

/-- `.dt.date` on a cell: truncate a datetime to its calendar day. -/
def dtDateCell : Cell → Cell
  | Cell.dt t => Cell.date t.day
  | _ => Cell.null

/-- The cell of column `k` as fed to a pandas column operation (a missing
key behaves as a null value). -/
def colCell (r : Row) (k : String) : Cell :=
  (r.lookup k).getD Cell.null

/-- `load_trader_data` (work.py lines 26-47): rename headers, require a
`time` column (else `KeyError`), parse `time` day-first with coercion of
failures to null, derive `Date` as the calendar day, and synthesize an
all-null `leverage` column when absent. -/
def load_trader_data (parse : Cell → Option Timestamp) (df : DF) : Except String DF :=
  let df1 := renameDF trade_column_mapping df
  if "time" ∈ df1.cols then
    let df2 := setColumn df1 "time" (fun r => toDatetimeCoerce parse (colCell r "time"))
    let df3 := setColumn df2 "Date" (fun r => dtDateCell (colCell r "time"))
    let df4 := if "leverage" ∈ df3.cols then df3 else setColumn df3 "leverage" (fun _ => Cell.null)
    Except.ok df4
  else
    Except.error "No valid time column found in trader data"

/-- `load_fear_greed_data` (work.py lines 48-55): rename headers, then
`df['Date'] = pd.to_datetime(df['Date']).dt.date`.  `to_datetime` is
called with its default `errors="raise"`, so one unparseable non-null
date value fails the whole load; a missing `Date` column is a `KeyError`. -/
def load_fear_greed_data (parse : Cell → Option Timestamp) (df : DF) : Except String DF :=
  let df1 := renameDF fg_column_mapping df
  if "Date" ∈ df1.cols then do
    let rows2 ← df1.rows.mapM (fun r => do
      let c ← toDatetimeRaise parse (colCell r "Date")
      pure (setCell r "Date" (dtDateCell c)))
    Except.ok { cols := df1.cols, rows := rows2 }
  else
    Except.error "KeyError: Date"

/-- `pd.merge(t, f, on="Date", how="inner")` (work.py lines 19-24): every
pair of a left row and a right row with equal `Date` cells produces one
output row (pandas matches null join keys with null join keys); the right
row contributes its non-key columns. -/
def mergeOn (t f : DF) : DF :=
  { cols := t.cols ++ f.cols.filter (fun c => c ≠ "Date"),
    rows := t.rows.flatMap (fun tr =>
      (f.rows.filter (fun fr => fr.lookup "Date" == tr.lookup "Date")).map
        (fun fr => tr ++ fr.filter (fun kv => kv.1 ≠ "Date"))) }

/-- The loaded frames held by a constructed `TraderSentimentAnalysis`. -/
structure RawAnalysis where
  trader_data : DF
  fear_greed_data : DF
  merged_data : DF
deriving DecidableEq

/-- `TraderSentimentAnalysis.__init__` (work.py lines 13-24): load both
inputs, then inner-merge them on `Date`.  A loader error propagates and no
merged dataset (hence no downstream analysis or output) is produced. -/
def TraderSentimentAnalysis_init (parseT parseS : Cell → Option Timestamp)
    (traderDF fgDF : DF) : Except String RawAnalysis := do
  let t ← load_trader_data parseT traderDF
  let f ← load_fear_greed_data parseS fgDF
  Except.ok { trader_data := t, fear_greed_data := f, merged_data := mergeOn t f }

/-! ## Typed tier: the merged dataset and its consumers -/

/-- A row of the merged dataset, typed with the columns the downstream
operations read: the join key `Date` (null when the joined date cells were
null), the sentiment `Classification`, and the numeric trade columns.
`leverage` is optional because the loader synthesizes an all-null column
when the input lacks one. -/
structure MergedRow where
  account : String
  Date : Option Int
  Classification : String
  closedPnL : ℚ
  size : ℚ
  leverage : Option ℚ
deriving DecidableEq

/-- Arithmetic mean of a list of rationals (pandas `mean` of a non-empty
numeric series). -/
def listMean (l : List ℚ) : ℚ := l.sum / l.length

/-- pandas `mean` with its default `skipna=True` over a column with nulls:
the mean of the non-null values, or null (`NaN`) when all are null. -/
def meanSkipna (l : List (Option ℚ)) : Option ℚ :=
  let vs := l.filterMap id
  if vs.isEmpty then none else some (vs.sum / vs.length)

/-- One output row of `calculate_trader_metrics`.  The group keys are
non-null because pandas `groupby` drops rows with a null key. -/
structure TraderMetric where
  account : String
  Date : Int
  Classification : String
  total_pnl : ℚ
  avg_leverage : Option ℚ
  trade_count : Nat
  avg_size : ℚ
deriving DecidableEq

/-- Membership of a merged row in the `(account, Date, Classification)`
group of `calculate_trader_metrics`. -/
def inGroup (a : String) (d : Int) (c : String) (r : MergedRow) : Bool :=
  r.account == a && r.Date == some d && r.Classification == c

/-- The groupby key of a merged row; `none` when the `Date` key is null
(such rows are dropped by pandas `groupby`). -/
def metricKey (r : MergedRow) : Option (String × Int × String) :=
  r.Date.map (fun d => (r.account, d, r.Classification))

/-- The `agg` of work.py lines 60-65 on one `(account, Date,
Classification)` group: `total_pnl` is the sum of `closedPnL`,
`avg_leverage` the null-ignoring mean of `leverage`, `trade_count` the row
count and `avg_size` the mean of `size`. -/
def aggGroup (m : List MergedRow) (k : String × Int × String) : TraderMetric :=
  let g := m.filter (inGroup k.1 k.2.1 k.2.2)
  { account := k.1, Date := k.2.1, Classification := k.2.2,
    total_pnl := (g.map MergedRow.closedPnL).sum,
    avg_leverage := meanSkipna (g.map MergedRow.leverage),
    trade_count := g.length,
    avg_size := listMean (g.map MergedRow.size) }

/-- `calculate_trader_metrics` (work.py lines 56-68): group the merged set
by `(account, Date, Classification)` — one group per distinct non-null
key, pandas `groupby` dropping null keys — and aggregate each group. -/
def calculate_trader_metrics (m : List MergedRow) : List TraderMetric :=
  ((m.filterMap metricKey).dedup).map (aggGroup m)

/-! ## Insight generation -/

/-- Decimal digits of a natural number, most significant first
(fuel-based structural recursion; `n + 1` fuel always suffices). -/
def natDigitsAux : Nat → Nat → List Char
  | 0, _ => []
  | fuel + 1, n =>
    if n < 10 then [Nat.digitChar n]
    else natDigitsAux fuel (n / 10) ++ [Nat.digitChar (n % 10)]

/-- Decimal digits of a natural number, most significant first. -/
def natDigits (n : Nat) : List Char :=
  natDigitsAux (n + 1) n

/-- Round a rational to the nearest integer, ties to even (the rounding of
Python's fixed-point float formatting). -/
def roundHalfEven (q : ℚ) : Int :=
  let f := ⌊q⌋
  let r := q - f
  if r < 1/2 then f
  else if 1/2 < r then f + 1
  else if f % 2 = 0 then f else f + 1

/-- Exactly two decimal digit characters (the fractional part of a
two-decimal rendering). -/
def pad2 (n : Nat) : String :=
  String.mk [Nat.digitChar (n / 10 % 10), Nat.digitChar (n % 10)]

/-- Models Python's `f"{x:.2f}"` on a rational: round to hundredths
(half-to-even) and print with exactly two digits after the point.  The
`-0.00` corner of a negative value rounding to zero is not distinguished. -/
def formatTwoDecimals (q : ℚ) : String :=
  let cents := roundHalfEven (q * 100)
  let sign := if cents < 0 then "-" else ""
  sign ++ String.mk (natDigits (cents.natAbs / 100)) ++ "." ++ pad2 (cents.natAbs % 100)

/-- Models Python's `f"{x:.2f}"` on a possibly-null value: formatting
`NaN` renders `"nan"`. -/
def formatFloat2 : Option ℚ → String
  | none => "nan"
  | some q => formatTwoDecimals q

/-- Whether the merged set contains a row of classification `c` (i.e.
whether `c` is a key of a `groupby("Classification")` result). -/
def hasClass (m : List MergedRow) (c : String) : Bool :=
  m.any (fun r => r.Classification == c)

/-- Mean `closedPnL` of the merged rows of classification `c`
(`groupby("Classification")["closedPnL"].mean()` at key `c`). -/
def classMeanPnl (m : List MergedRow) (c : String) : ℚ :=
  listMean ((m.filter (fun r => r.Classification == c)).map MergedRow.closedPnL)

/-- `sentiment_perf.get(c, 0)` (work.py lines 114, 116): the grouped mean
when `c` is present, the default `0` when it is absent. -/
def sentimentPerfGet (m : List MergedRow) (c : String) : ℚ :=
  if hasClass m c then classMeanPnl m c else 0

/-- Null-ignoring mean `leverage` of the merged rows of classification `c`
(`groupby("Classification")["leverage"].mean()` at key `c`); null when the
group's leverages are all null. -/
def classMeanLeverage (m : List MergedRow) (c : String) : Option ℚ :=
  meanSkipna ((m.filter (fun r => r.Classification == c)).map MergedRow.leverage)

/-- `avg_leverage.get(c, 0)` (work.py lines 119-120): the grouped mean
when `c` is present (possibly null), the default `0` when absent. -/
def avgLeverageGet (m : List MergedRow) (c : String) : Option ℚ :=
  if hasClass m c then classMeanLeverage m c else some 0

def fearSentence : String := "Traders tend to lose more during Fear sentiment."

def greedSentence : String := "Traders perform better during Greed sentiment."

/-- The formatted leverage line for classification `c`. -/
def leverageLine (m : List MergedRow) (c : String) : String :=
  "Avg leverage during " ++ c ++ ": " ++ formatFloat2 (avgLeverageGet m c)

/-- `generate_trading_insights` (work.py lines 111-121): conditionally the
Fear-loss and Greed-gain sentences, then always the two leverage lines, in
declaration order. -/
def generate_trading_insights (m : List MergedRow) : List String :=
  (if sentimentPerfGet m "Fear" < 0 then [fearSentence] else []) ++
  (if sentimentPerfGet m "Greed" > 0 then [greedSentence] else []) ++
  [leverageLine m "Fear", leverageLine m "Greed"]

/-! ## Sentiment transition analysis and the pipeline state -/

/-- A row of the sentiment frame as held by the pipeline state.
`Classification` and the derived columns are optional because pandas cells
can be null; `Prev_Sentiment` and `Transition` are the two columns the
transition step appends (null before that step, standing for the columns
being absent). -/
structure FGRow where
  Date : Option Int
  Classification : Option String
  Prev_Sentiment : Option String := none
  Transition : Option String := none
deriving DecidableEq

/-- pandas `Series.shift(1)` on an optional-string column: the first
element becomes null, every other element takes its predecessor. -/
def shiftOne (l : List (Option String)) : List (Option String) :=
  none :: l.dropLast

/-- The `Transition` column: `Prev_Sentiment + " → " + Classification`,
null whenever either side is null (pandas string addition with `NaN`). -/
def transitionColumn (cls : List (Option String)) : List (Option String) :=
  List.zipWith
    (fun p c =>
      match p, c with
      | some ps, some cs => some (ps ++ " → " ++ cs)
      | _, _ => none)
    (shiftOne cls) cls

/-- The in-place mutation of `sentiment_transition_analysis` (work.py
lines 101-104): append `Prev_Sentiment` (the shifted classification) and
`Transition` to the sentiment frame. -/
def addTransitionCols (l : List FGRow) : List FGRow :=
  List.zipWith
    (fun (p : Option String) (r : FGRow) =>
      { r with
        Prev_Sentiment := p,
        Transition :=
          match p, r.Classification with
          | some ps, some cs => some (ps ++ " → " ++ cs)
          | _, _ => none })
    (shiftOne (l.map (fun r => r.Classification))) l

/-- `value_counts()` of an optional-string column at label `t`: null
entries are excluded by pandas `value_counts`. -/
def valueCountsAt (col : List (Option String)) (t : String) : Nat :=
  col.count (some t)

/-- The chart artifacts and the workbook sheets produced by the run. -/
inductive SheetData where
  | metrics (rows : List TraderMetric)
  | merged (rows : List MergedRow)
deriving DecidableEq

/-- The mutable state of a constructed `TraderSentimentAnalysis` as read
and written by the analysis/insight/export methods, plus the produced
artifacts (chart file names, workbook sheets, printed lines). -/
structure AnalysisState where
  trader_data : DF
  fear_greed_data : List FGRow
  merged_data : List MergedRow
  charts : List String := []
  workbook : List (String × SheetData) := []
  stdout : List String := []
deriving DecidableEq

/-- `analyze_sentiment_distribution` (work.py lines 69-75): reads the
sentiment frame, writes a pie chart; no frame is modified. -/
def analyze_sentiment_distribution (st : AnalysisState) : AnalysisState :=
  { st with charts := st.charts ++ ["sentiment_distribution.png"] }

/-- `analyze_performance_by_sentiment` (work.py lines 76-86): reads the
merged set, writes a bar chart; no frame is modified. -/
def analyze_performance_by_sentiment (st : AnalysisState) : AnalysisState :=
  { st with charts := st.charts ++ ["performance_by_sentiment.png"] }

/-- `analyze_top_performers` (work.py lines 87-99): reads the merged set,
writes a bar chart; no frame is modified. -/
def analyze_top_performers (st : AnalysisState) : AnalysisState :=
  { st with charts := st.charts ++ ["top_traders.png"] }

/-- `sentiment_transition_analysis` (work.py lines 100-110): appends the
`Prev_Sentiment` and `Transition` columns to the sentiment frame in place,
then writes a bar chart of the transition counts. -/
def sentiment_transition_analysis (st : AnalysisState) : AnalysisState :=
  { st with
    fear_greed_data := addTransitionCols st.fear_greed_data,
    charts := st.charts ++ ["sentiment_transitions.png"] }

/-- `style_excel_workbook` (work.py lines 128-137): header styling only;
the sheet data is unchanged. -/
def style_excel_workbook (st : AnalysisState) : AnalysisState := st

/-- `export_to_excel` (work.py lines 122-127): write the trader metrics
and the merged set as the two workbook sheets, then style the headers. -/
def export_to_excel (st : AnalysisState) : AnalysisState :=
  style_excel_workbook
    { st with
      workbook :=
        [("Trader Metrics", SheetData.metrics (calculate_trader_metrics st.merged_data)),
         ("Merged Data", SheetData.merged st.merged_data)] }

/-- `run_all_analyses` (work.py lines 138-146): the four chart analyses in
order, then print the generated insights. -/
def run_all_analyses (st : AnalysisState) : AnalysisState :=
  let st := analyze_sentiment_distribution st
  let st := analyze_performance_by_sentiment st
  let st := analyze_top_performers st
  let st := sentiment_transition_analysis st
  { st with stdout := st.stdout ++ generate_trading_insights st.merged_data }

/-! ## Row-level helper lemmas -/

theorem lookup_map_update (r : Row) (k : String) (v : Cell) :
    (r.lookup k).isSome →
    (r.map (fun kv => if kv.1 = k then (k, v) else kv)).lookup k = some v := by
  induction r with
  | nil => intro h; simp at h
  | cons a t ih =>
    obtain ⟨a1, a2⟩ := a
    intro h
    by_cases hak : a1 = k
    · simp only [List.map_cons, if_pos hak]
      exact List.lookup_cons_self
    · have hbk : (k == a1) = false := by
        simp [beq_iff_eq, Ne.symm hak]
      simp only [List.lookup_cons, hbk] at h
      simp only [List.map_cons, if_neg hak, List.lookup_cons, hbk]
      exact ih h

theorem lookup_map_update_ne (r : Row) (k k' : String) (v : Cell) (h : k' ≠ k) :
    (r.map (fun kv => if kv.1 = k then (k, v) else kv)).lookup k' = r.lookup k' := by
  induction r with
  | nil => simp
  | cons a t ih =>
    obtain ⟨a1, a2⟩ := a
    by_cases hak : a1 = k
    · have hbk : (k' == k) = false := by simp [beq_iff_eq, h]
      subst hak
      simp only [List.map_cons, List.lookup_cons, hbk]
      simpa [List.lookup_cons, hbk] using ih
    · simp only [List.map_cons, if_neg hak, List.lookup_cons]
      cases hba : k' == a1 with
      | true => rfl
      | false => exact ih

theorem lookup_setCell_self (r : Row) (k : String) (v : Cell) :
    (setCell r k v).lookup k = some v := by
  unfold setCell
  split
  · exact lookup_map_update r k v (by assumption)
  · next h =>
    have hnone : r.lookup k = none := by
      cases hrk : r.lookup k with
      | none => rfl
      | some b => rw [hrk] at h; simp at h
    rw [List.lookup_append, hnone]
    simp

theorem lookup_setCell_ne (r : Row) (k k' : String) (v : Cell) (h : k' ≠ k) :
    (setCell r k v).lookup k' = r.lookup k' := by
  unfold setCell
  split
  · exact lookup_map_update_ne r k k' v h
  · rw [List.lookup_append]
    cases hrk : r.lookup k' with
    | some b => rfl
    | none =>
      have hbk : (k' == k) = false := by simp [beq_iff_eq, h]
      simp [List.lookup_cons, hbk]

/-! ## C3: missing time column aborts the run -/

/--
C3: For every trade input that, after applying the fixed header-renaming
map, has no `time` column, the Trade Loader always fails with an error
(the `KeyError` the spec calls `SchemaError`), regardless of which other
columns are present; the failure propagates out of the constructor, so no
merged dataset (and hence no downstream analysis or output) is produced.
-/
theorem missing_time_column_aborts (parseT parseS : Cell → Option Timestamp)
    (traderDF fgDF : DF)
    (h : "time" ∉ (renameDF trade_column_mapping traderDF).cols) :
    load_trader_data parseT traderDF =
      Except.error "No valid time column found in trader data" ∧
    TraderSentimentAnalysis_init parseT parseS traderDF fgDF =
      Except.error "No valid time column found in trader data" := by
  have h1 : load_trader_data parseT traderDF =
      Except.error "No valid time column found in trader data" := by
    unfold load_trader_data
    rw [if_neg h]
  refine ⟨h1, ?_⟩
  unfold TraderSentimentAnalysis_init
  rw [h1]
  rfl

/-- Witness for C3 at a concrete trade input whose headers contain no
time-equivalent column. -/
theorem missing_time_column_aborts_witness :
    load_trader_data (fun _ => none)
        { cols := ["Account", "Closed PnL"], rows := [] } =
      Except.error "No valid time column found in trader data" ∧
    TraderSentimentAnalysis_init (fun _ => none) (fun _ => none)
        { cols := ["Account", "Closed PnL"], rows := [] }
        { cols := ["date", "classification"], rows := [] } =
      Except.error "No valid time column found in trader data" :=
  missing_time_column_aborts (fun _ => none) (fun _ => none)
    { cols := ["Account", "Closed PnL"], rows := [] }
    { cols := ["date", "classification"], rows := [] } (by decide)

/-! ## C4: the sentiment loader on unparseable dates -/

/--
Counterexample to C4: the claim says the Sentiment Loader "does not raise
on an individual unparseable date value: such a value becomes null".
On a concrete input with `date` and `classification` columns and a single
unparseable date value, `pd.to_datetime` is called with its default
`errors="raise"` (work.py line 54) and the load fails instead of
nulling the value.
-/
theorem sentiment_unparseable_date_raises_cex :
    load_fear_greed_data (fun _ => none)
        { cols := ["date", "classification"],
          rows := [[("date", Cell.str "not-a-date"), ("classification", Cell.str "Fear")]] } =
      Except.error "ValueError: unable to parse date" := by
  rfl

/-- `toDatetimeRaise` produces only the `ValueError` message. -/
theorem toDatetimeRaise_error_eq (parse : Cell → Option Timestamp) (c : Cell)
    (e : String) (h : toDatetimeRaise parse c = Except.error e) :
    e = "ValueError: unable to parse date" := by
  unfold toDatetimeRaise at h
  split at h
  · exact absurd h (by simp)
  · exact absurd h (by simp)
  · split at h
    · exact absurd h (by simp)
    · injection h with h'
      exact h'.symm

/-- An unparseable value anywhere in the column fails the whole `mapM`. -/
theorem mapM_date_error (parse : Cell → Option Timestamp) :
    ∀ (l : List Row),
      (∃ r ∈ l, ∃ s, colCell r "Date" = Cell.str s ∧ parse (Cell.str s) = none) →
      (l.mapM (fun r => do
          let c ← toDatetimeRaise parse (colCell r "Date")
          pure (setCell r "Date" (dtDateCell c)))
        : Except String (List Row)) =
        Except.error "ValueError: unable to parse date" := by
  intro l
  induction l with
  | nil => rintro ⟨r, hr, _⟩; simp at hr
  | cons a t ih =>
    rintro ⟨r, hr, s, hs, hps⟩
    rw [List.mapM_cons]
    rcases List.mem_cons.mp hr with rfl | hrt
    · have : toDatetimeRaise parse (colCell r "Date") =
          Except.error "ValueError: unable to parse date" := by
        rw [hs]
        unfold toDatetimeRaise
        simp [hps]
      rw [this]
      rfl
    · cases hhead : toDatetimeRaise parse (colCell a "Date") with
      | error e =>
        have he := toDatetimeRaise_error_eq parse _ e hhead
        subst he
        rfl
      | ok c =>
        have htail := ih ⟨r, hrt, s, hs, hps⟩
        rw [htail]
        rfl

/--
C4, amended: for every sentiment input with date and classification
columns, the Sentiment Loader raises on an individual unparseable
(non-null) date value — `pd.to_datetime` runs with its default
`errors="raise"` — aborting the run rather than nulling the value and
continuing; the coercion tolerance belongs to the Trade Loader only.
-/
theorem sentiment_unparseable_date_raises (parse : Cell → Option Timestamp)
    (df : DF)
    (hcol : "Date" ∈ (renameDF fg_column_mapping df).cols)
    (h : ∃ r ∈ (renameDF fg_column_mapping df).rows,
        ∃ s, colCell r "Date" = Cell.str s ∧ parse (Cell.str s) = none) :
    load_fear_greed_data parse df = Except.error "ValueError: unable to parse date" := by
  unfold load_fear_greed_data
  rw [if_pos hcol]
  rw [mapM_date_error parse _ h]
  rfl

/-- Witness for the amended C4 at a concrete input. -/
theorem sentiment_unparseable_date_raises_witness :
    load_fear_greed_data (fun _ => none)
        { cols := ["date", "classification"],
          rows := [[("date", Cell.str "2024-13-99"), ("classification", Cell.str "Greed")]] } =
      Except.error "ValueError: unable to parse date" :=
  sentiment_unparseable_date_raises (fun _ => none)
    { cols := ["date", "classification"],
      rows := [[("date", Cell.str "2024-13-99"), ("classification", Cell.str "Greed")]] }
    (by decide)
    ⟨[("Date", Cell.str "2024-13-99"), ("Classification", Cell.str "Greed")],
      by decide, "2024-13-99", by decide, rfl⟩

/-! ## C5: the trade loader keeps every input row -/

/-- After the `time` and `Date` assignments, a row whose time value
coerced to null carries a null `time` and a null derived `Date`. -/
theorem null_time_row (parse : Cell → Option Timestamp) (r : Row)
    (hU : toDatetimeCoerce parse (colCell r "time") = Cell.null) :
    colCell (setCell (setCell r "time" (toDatetimeCoerce parse (colCell r "time"))) "Date"
        (dtDateCell (colCell (setCell r "time" (toDatetimeCoerce parse (colCell r "time"))) "time")))
      "time" = Cell.null ∧
    colCell (setCell (setCell r "time" (toDatetimeCoerce parse (colCell r "time"))) "Date"
        (dtDateCell (colCell (setCell r "time" (toDatetimeCoerce parse (colCell r "time"))) "time")))
      "Date" = Cell.null := by
  have h1 : (setCell r "time" (toDatetimeCoerce parse (colCell r "time"))).lookup "time" =
      some Cell.null := by
    rw [hU]
    exact lookup_setCell_self r "time" Cell.null
  have hc1 : colCell (setCell r "time" (toDatetimeCoerce parse (colCell r "time"))) "time" =
      Cell.null := by
    rw [colCell, h1]
    rfl
  constructor
  · rw [colCell, lookup_setCell_ne _ "Date" "time" _ (by decide), h1]
    rfl
  · rw [colCell, lookup_setCell_self, hc1]
    rfl

/-- Setting the synthesized `leverage` column touches no other column. -/
theorem colCell_setCell_leverage (r : Row) (k : String) (h : k ≠ "leverage") :
    colCell (setCell r "leverage" Cell.null) k = colCell r k := by
  rw [colCell, lookup_setCell_ne _ "leverage" k _ h, colCell]

/--
C5: For every trade input that contains a `time` column after renaming,
the Trade Loader succeeds and its output row count equals the input row
count; each row whose time value is unparseable (coerced to null) is kept,
with a null `time` and hence a null derived `Date`, rather than being
dropped or raising.
-/
theorem trade_loader_preserves_row_count (parse : Cell → Option Timestamp) (df : DF)
    (h : "time" ∈ (renameDF trade_column_mapping df).cols) :
    ∃ out, load_trader_data parse df = Except.ok out ∧
      out.rows.length = df.rows.length ∧
      List.Forall₂ (fun r r' =>
          toDatetimeCoerce parse (colCell r "time") = Cell.null →
            colCell r' "time" = Cell.null ∧ colCell r' "Date" = Cell.null)
        (renameDF trade_column_mapping df).rows out.rows := by
  by_cases hlev :
      "leverage" ∈ (setColumn (setColumn (renameDF trade_column_mapping df) "time"
        (fun r => toDatetimeCoerce parse (colCell r "time"))) "Date"
        (fun r => dtDateCell (colCell r "time"))).cols
  · refine ⟨_, by simp only [load_trader_data]; rw [if_pos h, if_pos hlev], ?_, ?_⟩
    · simp [setColumn, renameDF]
    · simp only [setColumn, renameDF, List.map_map]
      rw [List.forall₂_map_right_iff, List.forall₂_map_left_iff, List.forall₂_same]
      intro r _ hU
      simpa using null_time_row parse _ hU
  · refine ⟨_, by simp only [load_trader_data]; rw [if_pos h, if_neg hlev], ?_, ?_⟩
    · simp [setColumn, renameDF]
    · simp only [setColumn, renameDF, List.map_map]
      rw [List.forall₂_map_right_iff, List.forall₂_map_left_iff, List.forall₂_same]
      intro r _ hU
      have hbase := null_time_row parse _ hU
      constructor
      · simp only [Function.comp_apply]
        rw [colCell_setCell_leverage _ "time" (by decide)]
        exact hbase.1
      · simp only [Function.comp_apply]
        rw [colCell_setCell_leverage _ "Date" (by decide)]
        exact hbase.2

/-- Witness for C5 at a one-row trade input whose timestamp is
unparseable: the row is kept. -/
theorem trade_loader_preserves_row_count_witness :
    (load_trader_data (fun _ => none)
        { cols := ["Timestamp IST"], rows := [[("Timestamp IST", Cell.str "bogus")]] }).map
      (fun out => out.rows.length) = Except.ok 1 := by
  obtain ⟨out, hok, hlen, _⟩ :=
    trade_loader_preserves_row_count (fun _ => none)
      { cols := ["Timestamp IST"], rows := [[("Timestamp IST", Cell.str "bogus")]] }
      (by decide)
  rw [hok]
  show Except.ok out.rows.length = Except.ok 1
  rw [hlen]
  rfl

/-! ## C8: sentiment transition analysis -/

theorem zipWith_eq_map_zip {α β γ : Type} (f : α → β → γ) :
    ∀ (X : List α) (Y : List β), List.zipWith f X Y = (X.zip Y).map (fun p => f p.1 p.2) := by
  intro X
  induction X with
  | nil => intro Y; rfl
  | cons x X ih =>
    intro Y
    cases Y with
    | nil => rfl
    | cons y Y => simp [List.zip_cons_cons, ih]

theorem dropLast_cons_zip {α : Type} (x : α) (l : List α) :
    ((x :: l).dropLast).zip l = (x :: l).zip l := by
  induction l generalizing x with
  | nil => rfl
  | cons b t ih => simpa [List.zip_cons_cons] using ih b

/-- The `Transition` column of the mutated sentiment frame is exactly
`transitionColumn` of its classification column. -/
theorem map_transition_addTransitionCols (rows : List FGRow) :
    (addTransitionCols rows).map (fun r => r.Transition) =
      transitionColumn (rows.map (fun r => r.Classification)) := by
  unfold addTransitionCols transitionColumn
  rw [List.map_zipWith, List.zipWith_map_right]

/-- On an all-non-null classification column, the transition column is a
leading null (the first row) followed by one label per adjacent pair. -/
theorem transitionColumn_map_some (l : List String) :
    transitionColumn (l.map some) =
      (none :: (l.zip l.tail).map (fun p => some (p.1 ++ " → " ++ p.2))).take
        (l.map some).length := by
  cases l with
  | nil => rfl
  | cons a l' =>
    unfold transitionColumn shiftOne
    rw [List.map_cons, List.zipWith_cons_cons]
    have hdrop : ((some a : Option String) :: l'.map some).dropLast = ((a :: l').dropLast).map some := by
      rw [← List.map_cons, List.map_dropLast]
    rw [hdrop, List.zipWith_map, zipWith_eq_map_zip, dropLast_cons_zip]
    simp only [List.tail_cons, List.length_map, List.length_cons, List.take_succ_cons]
    rw [List.take_of_length_le]
    rw [List.length_map, List.length_zip]
    simp

theorem countP_isSome_map_some {α β : Type} (f : α → β) (P : List α) :
    (P.map (fun p => some (f p))).countP (fun o => o.isSome) = P.length := by
  induction P with
  | nil => rfl
  | cons p P ih => simp [List.countP_cons, ih]

theorem count_some_map {α β : Type} [BEq β] (f : α → β) (P : List α) (t : β) :
    (P.map (fun p => some (f p))).count (some t) = (P.map f).count t := by
  induction P with
  | nil => rfl
  | cons p P ih =>
    rw [List.map_cons, List.map_cons, List.count_cons, List.count_cons, ih]
    rfl

/--
C8: For every sentiment record set (given here with its classification
column all non-null), the transition analysis pairs each row with its
immediately preceding row in the frame's native row order — no re-sorting
happens anywhere — so the `Transition` column is a leading null (the first
row, which has no predecessor and is excluded from `value_counts`)
followed by one "Prev → Current" label per adjacent pair; the count of
every label equals the number of adjacent pairs producing it, and the
number of counted (non-null) transitions is the row count minus one.
-/
theorem sentiment_transitions_spec (rows : List FGRow) (l : List String)
    (h : rows.map (fun r => r.Classification) = l.map some) :
    ((addTransitionCols rows).map (fun r => r.Transition) =
      (none :: (l.zip l.tail).map (fun p => some (p.1 ++ " → " ++ p.2))).take l.length) ∧
    (∀ t, valueCountsAt ((addTransitionCols rows).map (fun r => r.Transition)) t =
        ((l.zip l.tail).map (fun p => p.1 ++ " → " ++ p.2)).count t) ∧
    (((addTransitionCols rows).map (fun r => r.Transition)).countP (fun o => o.isSome) =
      l.length - 1) := by
  have hcol : (addTransitionCols rows).map (fun r => r.Transition) =
      transitionColumn (l.map some) := by
    rw [map_transition_addTransitionCols, h]
  cases l with
  | nil =>
    rw [hcol]
    exact ⟨rfl, fun t => rfl, rfl⟩
  | cons a l' =>
    have hmain := transitionColumn_map_some (a :: l')
    rw [List.length_map] at hmain
    have hlenP : (((a :: l').zip (a :: l').tail).map
        (fun p => some (p.1 ++ " → " ++ p.2))).length ≤ l'.length := by
      simp [List.length_zip]
    have hform : transitionColumn ((a :: l').map some) =
        none :: ((a :: l').zip (a :: l').tail).map (fun p => some (p.1 ++ " → " ++ p.2)) := by
      rw [hmain, List.length_cons, List.take_succ_cons, List.take_of_length_le hlenP]
    refine ⟨by rw [hcol, hmain], ?_, ?_⟩
    · intro t
      rw [valueCountsAt, hcol, hform, List.count_cons]
      have hnone : ((none : Option String) == some t) = false := rfl
      rw [hnone, if_neg (by simp), Nat.add_zero, count_some_map]
    · rw [hcol, hform, List.countP_cons_of_neg _ _ (by simp), countP_isSome_map_some]
      simp [List.length_zip]

/-- Witness for C8 on a concrete three-row sentiment series. -/
theorem sentiment_transitions_spec_witness :
    (addTransitionCols
        [{ Date := some 0, Classification := some "Fear" },
         { Date := some 1, Classification := some "Greed" },
         { Date := some 2, Classification := some "Greed" }]).map (fun r => r.Transition) =
      [none, some "Fear → Greed", some "Greed → Greed"] := by
  have h := (sentiment_transitions_spec
    [{ Date := some 0, Classification := some "Fear" },
     { Date := some 1, Classification := some "Greed" },
     { Date := some 2, Classification := some "Greed" }]
    ["Fear", "Greed", "Greed"] (by rfl)).1
  rw [h]
  rfl

/-! ## C9: the merged dataset is never mutated -/

theorem map_zipWith_right_proj {α β γ : Type} (g : β → γ) (F : α → β → β)
    (hF : ∀ a b, g (F a b) = g b) :
    ∀ (A : List α) (B : List β), B.length ≤ A.length →
      (List.zipWith F A B).map g = B.map g := by
  intro A
  induction A with
  | nil =>
    intro B hB
    have hBnil : B = [] := by
      cases B with
      | nil => rfl
      | cons b B => simp at hB
    subst hBnil
    rfl
  | cons a A ih =>
    intro B hB
    cases B with
    | nil => rfl
    | cons b B =>
      rw [List.zipWith_cons_cons, List.map_cons, List.map_cons, hF,
        ih B (by simpa using hB)]

/-- The transition step appends the two derived columns and leaves the
`Date` and `Classification` columns and the row count unchanged. -/
theorem addTransitionCols_preserves_base (rows : List FGRow) :
    (addTransitionCols rows).map (fun r => (r.Date, r.Classification)) =
      rows.map (fun r => (r.Date, r.Classification)) ∧
    (addTransitionCols rows).length = rows.length := by
  have hlen : rows.length ≤ (shiftOne (rows.map (fun r => r.Classification))).length := by
    unfold shiftOne
    rw [List.length_cons, List.length_dropLast, List.length_map]
    omega
  constructor
  · unfold addTransitionCols
    refine map_zipWith_right_proj _ _ ?_ _ rows hlen
    intro a b
    rfl
  · rw [addTransitionCols, List.length_zipWith]
    omega

/--
C9: After construction, the merged dataset is never mutated by any
analysis, insight, or export operation: each analysis step and the export
leave `merged_data` unchanged; over the whole run the only frame that
changes is the sentiment frame, which gains exactly the two derived
columns `Prev_Sentiment` and `Transition` (its `Date`/`Classification`
columns and row count are untouched) while `trader_data` is unchanged;
and the "Merged Data" sheet written by the export holds the merged set
exactly as originally constructed.
-/
theorem merged_data_immutable_spec (st : AnalysisState) :
    ((analyze_sentiment_distribution st).merged_data = st.merged_data) ∧
    ((analyze_performance_by_sentiment st).merged_data = st.merged_data) ∧
    ((analyze_top_performers st).merged_data = st.merged_data) ∧
    ((sentiment_transition_analysis st).merged_data = st.merged_data) ∧
    ((export_to_excel st).merged_data = st.merged_data) ∧
    ((export_to_excel (run_all_analyses st)).merged_data = st.merged_data) ∧
    ((export_to_excel (run_all_analyses st)).trader_data = st.trader_data) ∧
    ((export_to_excel (run_all_analyses st)).fear_greed_data =
        addTransitionCols st.fear_greed_data) ∧
    ((export_to_excel (run_all_analyses st)).fear_greed_data.map
        (fun r => (r.Date, r.Classification)) =
      st.fear_greed_data.map (fun r => (r.Date, r.Classification))) ∧
    ((export_to_excel (run_all_analyses st)).fear_greed_data.length =
        st.fear_greed_data.length) ∧
    (("Merged Data", SheetData.merged st.merged_data) ∈
        (export_to_excel (run_all_analyses st)).workbook) := by
  refine ⟨rfl, rfl, rfl, rfl, rfl, rfl, rfl, rfl, ?_, ?_, ?_⟩
  · exact (addTransitionCols_preserves_base st.fear_greed_data).1
  · exact (addTransitionCols_preserves_base st.fear_greed_data).2
  · simp [export_to_excel, style_excel_workbook, run_all_analyses,
      sentiment_transition_analysis, analyze_top_performers,
      analyze_performance_by_sentiment, analyze_sentiment_distribution]

/-! ## C2: the trader-metrics aggregation -/

theorem countP_eq_one_of_nodup {α : Type} [DecidableEq α] :
    ∀ (l : List α), l.Nodup → ∀ x ∈ l, l.countP (fun y => decide (y = x)) = 1 := by
  intro l
  induction l with
  | nil => intro _ x hx; simp at hx
  | cons a l ih =>
    intro hn x hx
    rw [List.nodup_cons] at hn
    rcases List.mem_cons.mp hx with rfl | hxl
    · rw [List.countP_cons_of_pos _ _ (by simp)]
      have hz : l.countP (fun y => decide (y = x)) = 0 := by
        rw [List.countP_eq_zero]
        intro b hb
        simp only [decide_eq_true_eq]
        intro hbx
        exact hn.1 (hbx ▸ hb)
      rw [hz]
    · by_cases hax : a = x
      · exact absurd (hax ▸ hxl) hn.1
      · rw [List.countP_cons_of_neg _ _ (by simpa using hax)]
        exact ih hn.2 x hxl

/--
C2: For every merged dataset and every `(account, date, classification)`
group present in it, `calculate_trader_metrics` produces exactly one
output row for that group, whose `total_pnl` is the arithmetic sum of
`closedPnL` over exactly the merged rows of the group, `trade_count` the
number of rows of the group, `avg_size` the mean of `size` over the group,
and `avg_leverage` the mean of `leverage` over the group ignoring nulls.
-/
theorem calculate_trader_metrics_spec (m : List MergedRow)
    (a : String) (d : Int) (c : String)
    (h : ∃ r ∈ m, inGroup a d c r = true) :
    ((calculate_trader_metrics m).filter
        (fun t => t.account == a && t.Date == d && t.Classification == c)).length = 1 ∧
    ∀ t ∈ calculate_trader_metrics m,
      t.account = a → t.Date = d → t.Classification = c →
        t.total_pnl = ((m.filter (inGroup a d c)).map MergedRow.closedPnL).sum ∧
        t.trade_count = (m.filter (inGroup a d c)).length ∧
        t.avg_size = listMean ((m.filter (inGroup a d c)).map MergedRow.size) ∧
        t.avg_leverage = meanSkipna ((m.filter (inGroup a d c)).map MergedRow.leverage) := by
  obtain ⟨r, hrm, hrg⟩ := h
  rw [inGroup, Bool.and_eq_true, Bool.and_eq_true] at hrg
  obtain ⟨⟨ha, hd⟩, hc⟩ := hrg
  rw [beq_iff_eq] at ha hc
  rw [show (r.Date == some d) = (r.Date == some d) from rfl, beq_iff_eq] at hd
  have hkey : metricKey r = some (a, d, c) := by
    rw [metricKey, hd]
    simp [ha, hc]
  have hkmem : (a, d, c) ∈ (m.filterMap metricKey).dedup :=
    List.mem_dedup.mpr (List.mem_filterMap.mpr ⟨r, hrm, hkey⟩)
  have hnodup := List.nodup_dedup (m.filterMap metricKey)
  constructor
  · rw [calculate_trader_metrics, List.filter_map, List.length_map,
      ← List.countP_eq_length_filter]
    calc
      List.countP
          ((fun t => t.account == a && t.Date == d && t.Classification == c) ∘ aggGroup m)
          ((m.filterMap metricKey).dedup) =
          List.countP (fun k => decide (k = (a, d, c))) ((m.filterMap metricKey).dedup) := by
        refine List.countP_congr ?_
        rintro ⟨k1, k2, k3⟩ hk
        simp [aggGroup, Bool.and_eq_true, Prod.ext_iff, and_assoc]
      _ = 1 := countP_eq_one_of_nodup _ hnodup _ hkmem
  · intro t ht ha2 hd2 hc2
    rw [calculate_trader_metrics] at ht
    obtain ⟨k, hk, rfl⟩ := List.mem_map.mp ht
    obtain ⟨k1, k2, k3⟩ := k
    simp only [aggGroup] at ha2 hd2 hc2
    subst ha2
    subst hd2
    subst hc2
    exact ⟨rfl, rfl, rfl, rfl⟩

/-- Witness for C2 on the spec's synthetic three-row group with PnL
values 10, -5 and 3. -/
theorem calculate_trader_metrics_spec_witness :
    ((calculate_trader_metrics
        [{ account := "acct", Date := some 5, Classification := "Fear",
           closedPnL := 10, size := 2, leverage := none },
         { account := "acct", Date := some 5, Classification := "Fear",
           closedPnL := -5, size := 4, leverage := some 3 },
         { account := "acct", Date := some 5, Classification := "Fear",
           closedPnL := 3, size := 6, leverage := none }]).filter
        (fun t => t.account == "acct" && t.Date == 5 && t.Classification == "Fear")).length = 1 :=
  (calculate_trader_metrics_spec _ "acct" 5 "Fear" (by decide)).1

/-! ## C6: the conditional PnL sentences -/

/--
C6: For every merged dataset in which the classification "Fear" occurs,
the Insight Generator emits the Fear-loss sentence exactly when the mean
`closedPnL` over the "Fear" rows is strictly negative (the `.get` default
0 plays no role once "Fear" is present), emits the Greed-gain sentence
exactly when "Greed" rows exist with strictly positive mean `closedPnL`,
and the emitted strings appear in the fixed rule-declaration order:
optional Fear sentence, optional Greed sentence, then the two leverage
lines.
-/
theorem insights_pnl_sentences_spec (m : List MergedRow)
    (hF : hasClass m "Fear" = true) :
    generate_trading_insights m =
      (if classMeanPnl m "Fear" < 0 then [fearSentence] else []) ++
      (if hasClass m "Greed" = true ∧ 0 < classMeanPnl m "Greed" then [greedSentence] else []) ++
      [leverageLine m "Fear", leverageLine m "Greed"] := by
  rw [generate_trading_insights]
  congr 1
  congr 1
  · rw [sentimentPerfGet, if_pos hF]
  · by_cases hG : hasClass m "Greed" = true
    · rw [sentimentPerfGet, if_pos hG]
      by_cases hp : 0 < classMeanPnl m "Greed"
      · rw [if_pos hp, if_pos ⟨hG, hp⟩]
      · rw [if_neg hp, if_neg (fun hh => hp hh.2)]
    · rw [sentimentPerfGet, if_neg hG, if_neg (lt_irrefl (0 : ℚ)),
        if_neg (fun hh => hG hh.1)]

/-- Witness for C6 on a one-row Fear dataset with negative PnL. -/
theorem insights_pnl_sentences_spec_witness :
    generate_trading_insights [⟨"a", some 0, "Fear", -5, 1, none⟩] =
      [fearSentence,
       leverageLine [⟨"a", some 0, "Fear", -5, 1, none⟩] "Fear",
       leverageLine [⟨"a", some 0, "Fear", -5, 1, none⟩] "Greed"] := by
  rw [insights_pnl_sentences_spec _ (by decide)]
  rw [if_pos (show classMeanPnl [⟨"a", some 0, "Fear", -5, 1, none⟩] "Fear" < 0 by
        norm_num [classMeanPnl, listMean]),
    if_neg (show ¬(hasClass [(⟨"a", some 0, "Fear", -5, 1, none⟩ : MergedRow)] "Greed" = true ∧
        0 < classMeanPnl [⟨"a", some 0, "Fear", -5, 1, none⟩] "Greed") by
        simp [hasClass])]
  rfl

/-! ## C7: the always-present two-decimal leverage lines -/

theorem digitChar_isDigit (d : Nat) (h : d < 10) : (Nat.digitChar d).isDigit = true := by
  interval_cases d <;> rfl

theorem natDigitsAux_isDigit :
    ∀ (fuel n : Nat), ∀ c ∈ natDigitsAux fuel n, c.isDigit = true := by
  intro fuel
  induction fuel with
  | zero => intro n c hc; simp [natDigitsAux] at hc
  | succ fuel ih =>
    intro n c hc
    rw [natDigitsAux] at hc
    split at hc
    · next h =>
      simp at hc
      subst hc
      exact digitChar_isDigit n h
    · rcases List.mem_append.mp hc with h1 | h2
      · exact ih (n / 10) c h1
      · simp at h2
        subst h2
        exact digitChar_isDigit _ (Nat.mod_lt _ (by omega))

theorem natDigits_isDigit (n : Nat) : ∀ c ∈ natDigits n, c.isDigit = true :=
  natDigitsAux_isDigit (n + 1) n

theorem isDigit_ne_dot (c : Char) (h : c.isDigit = true) : c ≠ '.' := by
  intro hEq
  rw [hEq] at h
  exact absurd h (by decide)

/-- The shape of the Python `.2f` rendering: an integer part free of
decimal points, a point, and exactly two digit characters. -/
theorem formatTwoDecimals_shape (q : ℚ) :
    ∃ a b : String, formatTwoDecimals q = a ++ "." ++ b ∧ b.length = 2 ∧
      (∀ ch ∈ b.data, ch.isDigit = true) ∧ (∀ ch ∈ a.data, ch ≠ '.') := by
  refine ⟨(if roundHalfEven (q * 100) < 0 then "-" else "") ++
      String.mk (natDigits ((roundHalfEven (q * 100)).natAbs / 100)),
    pad2 ((roundHalfEven (q * 100)).natAbs % 100), rfl, rfl, ?_, ?_⟩
  · intro ch hch
    have : ch = Nat.digitChar ((roundHalfEven (q * 100)).natAbs % 100 / 10 % 10) ∨
        ch = Nat.digitChar ((roundHalfEven (q * 100)).natAbs % 100 % 10) := by
      simpa [pad2] using hch
    rcases this with rfl | rfl
    · exact digitChar_isDigit _ (Nat.mod_lt _ (by omega))
    · exact digitChar_isDigit _ (Nat.mod_lt _ (by omega))
  · intro ch hch
    rw [String.data_append] at hch
    rcases List.mem_append.mp hch with h1 | h2
    · by_cases hneg : roundHalfEven (q * 100) < 0
      · rw [if_pos hneg] at h1
        have : ch = '-' := by simpa using h1
        subst this
        decide
      · rw [if_neg hneg] at h1
        simp at h1
    · have : ch ∈ natDigits ((roundHalfEven (q * 100)).natAbs / 100) := h2
      exact isDigit_ne_dot ch (natDigits_isDigit _ ch this)

/--
C7: For every merged dataset, the Insight Generator's output ends with
exactly the two leverage statements (one for Fear, one for Greed) and
everything before them is one of the two PnL sentences; each leverage
statement renders "0.00" whenever the merged set contains no rows of that
classification, and whenever the rendered mean is a number it is formatted
with exactly two decimal places (a dot-free integer part, a point, and two
digit characters).
-/
theorem insights_leverage_lines_spec (m : List MergedRow) :
    ((generate_trading_insights m).drop ((generate_trading_insights m).length - 2) =
      [leverageLine m "Fear", leverageLine m "Greed"]) ∧
    (∀ s ∈ (generate_trading_insights m).take ((generate_trading_insights m).length - 2),
        s = fearSentence ∨ s = greedSentence) ∧
    (hasClass m "Fear" = false → leverageLine m "Fear" = "Avg leverage during Fear: 0.00") ∧
    (hasClass m "Greed" = false → leverageLine m "Greed" = "Avg leverage during Greed: 0.00") ∧
    (∀ c q, avgLeverageGet m c = some q →
        ∃ a b : String,
          leverageLine m c = "Avg leverage during " ++ c ++ ": " ++ a ++ "." ++ b ∧
          b.length = 2 ∧ (∀ ch ∈ b.data, ch.isDigit = true) ∧ (∀ ch ∈ a.data, ch ≠ '.')) := by
  have h0 : roundHalfEven ((0 : ℚ) * 100) = 0 := by
    norm_num [roundHalfEven]
  have h000 : formatFloat2 (some 0) = "0.00" := by
    simp only [formatFloat2, formatTwoDecimals]
    rw [h0]
    rfl
  refine ⟨?_, ?_, ?_, ?_, ?_⟩
  · by_cases hf : sentimentPerfGet m "Fear" < 0 <;>
      by_cases hg : sentimentPerfGet m "Greed" > 0 <;>
      simp [generate_trading_insights, hf, hg]
  · by_cases hf : sentimentPerfGet m "Fear" < 0 <;>
      by_cases hg : sentimentPerfGet m "Greed" > 0 <;>
      simp [generate_trading_insights, hf, hg]
  · intro hF
    rw [leverageLine, avgLeverageGet, if_neg (by simp [hF]), h000]
    rfl
  · intro hG
    rw [leverageLine, avgLeverageGet, if_neg (by simp [hG]), h000]
    rfl
  · intro c q hq
    obtain ⟨a, b, hab, hb2, hbd, had⟩ := formatTwoDecimals_shape q
    refine ⟨a, b, ?_, hb2, hbd, had⟩
    rw [leverageLine, hq]
    simp only [formatFloat2]
    rw [hab]
    simp [String.append_assoc]

/-- Witness for C7 on the empty merged set: both leverage lines default to
"0.00" and are the whole tail of the output. -/
theorem insights_leverage_lines_spec_witness :
    leverageLine ([] : List MergedRow) "Fear" = "Avg leverage during Fear: 0.00" ∧
    leverageLine ([] : List MergedRow) "Greed" = "Avg leverage during Greed: 0.00" ∧
    (generate_trading_insights ([] : List MergedRow)).drop
        ((generate_trading_insights ([] : List MergedRow)).length - 2) =
      [leverageLine [] "Fear", leverageLine [] "Greed"] :=
  ⟨(insights_leverage_lines_spec []).2.2.1 rfl,
   (insights_leverage_lines_spec []).2.2.2.1 rfl,
   (insights_leverage_lines_spec []).1⟩

/-! ## C10: a missing leverage column yields null means, not 0.00 -/

/--
C10: When the trade input has no `leverage` column, the loader's
synthesized column is all-null, nulls survive the merge (the left rows
carry them), every `avg_leverage` produced by `calculate_trader_metrics`
is null (the mean of an all-null group is `NaN`, not 0), and for any
classification that is present in the merged set the leverage insight
line renders that null mean as "nan" rather than the "0.00" default —
the 0 default applies only when the classification key is entirely absent
from the grouped result.
-/
theorem missing_leverage_null_means_spec :
    (∀ (parse : Cell → Option Timestamp) (df : DF) (out : DF),
        "leverage" ∉ (renameDF trade_column_mapping df).cols →
        load_trader_data parse df = Except.ok out →
        ∀ r ∈ out.rows, r.lookup "leverage" = some Cell.null) ∧
    (∀ (t f : DF), (∀ r ∈ t.rows, r.lookup "leverage" = some Cell.null) →
        ∀ mr ∈ (mergeOn t f).rows, mr.lookup "leverage" = some Cell.null) ∧
    (∀ (m : List MergedRow), (∀ r ∈ m, r.leverage = none) →
        (∀ t ∈ calculate_trader_metrics m, t.avg_leverage = none) ∧
        (∀ c, hasClass m c = true →
            avgLeverageGet m c = none ∧
            leverageLine m c = "Avg leverage during " ++ c ++ ": nan") ∧
        (∀ c, hasClass m c = false → avgLeverageGet m c = some 0)) ∧
    ("Avg leverage during Fear: nan" ≠ "Avg leverage during Fear: 0.00") := by
  refine ⟨?_, ?_, ?_, by decide⟩
  · intro parse df out hnl hok
    by_cases ht : "time" ∈ (renameDF trade_column_mapping df).cols
    · have h2cols :
          (setColumn (renameDF trade_column_mapping df) "time"
            (fun r => toDatetimeCoerce parse (colCell r "time"))).cols =
          (renameDF trade_column_mapping df).cols := by
        simp only [setColumn]
        rw [if_pos ht]
      have hlev : "leverage" ∉
          (setColumn (setColumn (renameDF trade_column_mapping df) "time"
            (fun r => toDatetimeCoerce parse (colCell r "time"))) "Date"
            (fun r => dtDateCell (colCell r "time"))).cols := by
        simp only [setColumn]
        rw [if_pos ht]
        by_cases hD : "Date" ∈ (renameDF trade_column_mapping df).cols
        · rw [if_pos hD]
          exact hnl
        · rw [if_neg hD]
          intro hmem
          rcases List.mem_append.mp hmem with h1 | h2
          · exact hnl h1
          · simp at h2
      simp only [load_trader_data] at hok
      rw [if_pos ht, if_neg hlev] at hok
      injection hok with hout
      subst hout
      intro r hr
      obtain ⟨r0, _, rfl⟩ := List.mem_map.mp hr
      exact lookup_setCell_self r0 "leverage" Cell.null
    · rw [load_trader_data, if_neg ht] at hok
      cases hok
  · intro t f hall mr hmr
    simp only [mergeOn, List.mem_flatMap, List.mem_map, List.mem_filter] at hmr
    obtain ⟨tr, htr, fr, ⟨_, _⟩, rfl⟩ := hmr
    rw [List.lookup_append, hall tr htr]
    rfl
  · intro m hall
    have hmean : ∀ (p : MergedRow → Bool),
        meanSkipna ((m.filter p).map MergedRow.leverage) = none := by
      intro p
      have hv : ((m.filter p).map MergedRow.leverage).filterMap id = [] := by
        rw [List.filterMap_eq_nil_iff]
        intro a ha
        obtain ⟨r, hr, rfl⟩ := List.mem_map.mp ha
        rw [hall r (List.mem_filter.mp hr).1]
        rfl
      simp [meanSkipna, hv]
    refine ⟨?_, ?_, ?_⟩
    · intro t ht
      rw [calculate_trader_metrics] at ht
      obtain ⟨k, _, rfl⟩ := List.mem_map.mp ht
      exact hmean (inGroup k.1 k.2.1 k.2.2)
    · intro c hc
      have hnone : avgLeverageGet m c = none := by
        rw [avgLeverageGet, if_pos hc, classMeanLeverage]
        exact hmean _
      refine ⟨hnone, ?_⟩
      rw [leverageLine, hnone, String.append_assoc]
      rfl
    · intro c hc
      rw [avgLeverageGet, if_neg (by simp [hc])]

/-- Witness for C10 on a one-row all-null-leverage merged set with a
present "Fear" classification. -/
theorem missing_leverage_null_means_spec_witness :
    avgLeverageGet [⟨"a", some 0, "Fear", 1, 1, none⟩] "Fear" = none ∧
    leverageLine [⟨"a", some 0, "Fear", 1, 1, none⟩] "Fear" =
      "Avg leverage during Fear: nan" := by
  have h := (missing_leverage_null_means_spec.2.2.1
    [⟨"a", some 0, "Fear", 1, 1, none⟩] (by simp)).2.1 "Fear" (by decide)
  exact ⟨h.1, by rw [h.2]; decide⟩

/-! ## C1: the Merger is an inner join on the date key -/

theorem countP_eq_zero_of_not_mem {α : Type} [DecidableEq α] {l : List α} {x : α}
    (hx : x ∉ l) : l.countP (fun y => decide (y = x)) = 0 := by
  rw [List.countP_eq_zero]
  intro b hb
  simp only [decide_eq_true_eq]
  rintro rfl
  exact hx hb

/-- A merged row's `Date` cell is the trade row's `Date` cell (the
sentiment side contributes only its non-key columns). -/
theorem lookup_mergedRow_Date (tr fr : Row) :
    (tr ++ fr.filter (fun kv => kv.1 ≠ "Date")).lookup "Date" = tr.lookup "Date" := by
  have hnone : (fr.filter (fun kv => kv.1 ≠ "Date")).lookup "Date" = none := by
    rw [List.lookup_eq_none_iff]
    intro p hp
    have hne := (List.mem_filter.mp hp).2
    simp only [decide_eq_true_eq] at hne
    simp only [bne_iff_ne]
    exact fun h => hne h.symm
  rw [List.lookup_append, hnone]
  cases tr.lookup "Date" <;> rfl

theorem countP_match_eq (B : List Row) (d : Option Cell) :
    List.countP (fun fr => fr.lookup "Date" == d) B =
      List.countP (fun x => decide (x = d)) (B.map (fun r => r.lookup "Date")) := by
  rw [List.countP_map]
  refine List.countP_congr ?_
  intro fr _
  simp [Function.comp, beq_iff_eq]

/-- The merged row count equals the number of (trade row, sentiment row)
pairs whose `Date` cells agree. -/
theorem mergeRows_length_pairs (B : List Row) :
    ∀ (A : List Row),
      (A.flatMap (fun tr =>
        (B.filter (fun fr => fr.lookup "Date" == tr.lookup "Date")).map
          (fun fr => tr ++ fr.filter (fun kv => kv.1 ≠ "Date")))).length =
      ((A ×ˢ B).filter
        (fun p => p.2.lookup "Date" == p.1.lookup "Date")).length := by
  intro A
  induction A with
  | nil => rfl
  | cons tr trs ih =>
    rw [List.flatMap_cons, List.length_append, List.product_cons, List.filter_append,
      List.length_append, List.length_map, List.filter_map, List.length_map, ih]
    rfl

/-- With pairwise-distinct sentiment `Date` cells, the merged row count
equals the number of trade rows whose `Date` occurs among the sentiment
dates. -/
theorem mergeRows_length_nodup (B : List Row)
    (hn : (B.map (fun r => r.lookup "Date")).Nodup) :
    ∀ (A : List Row),
      (A.flatMap (fun tr =>
        (B.filter (fun fr => fr.lookup "Date" == tr.lookup "Date")).map
          (fun fr => tr ++ fr.filter (fun kv => kv.1 ≠ "Date")))).length =
      (A.filter (fun tr =>
        decide (tr.lookup "Date" ∈ B.map (fun r => r.lookup "Date")))).length := by
  intro A
  induction A with
  | nil => rfl
  | cons tr trs ih =>
    rw [List.flatMap_cons, List.length_append, List.length_map, ih, List.filter_cons]
    have hone : (B.filter (fun fr => fr.lookup "Date" == tr.lookup "Date")).length =
        if tr.lookup "Date" ∈ B.map (fun r => r.lookup "Date") then 1 else 0 := by
      rw [← List.countP_eq_length_filter, countP_match_eq]
      by_cases hmem : tr.lookup "Date" ∈ B.map (fun r => r.lookup "Date")
      · rw [if_pos hmem]
        exact countP_eq_one_of_nodup _ hn _ hmem
      · rw [if_neg hmem]
        exact countP_eq_zero_of_not_mem hmem
    rw [hone]
    by_cases hmem : tr.lookup "Date" ∈ B.map (fun r => r.lookup "Date")
    · rw [if_pos hmem, if_pos (decide_eq_true hmem)]
      rw [List.length_cons]
      omega
    · rw [if_neg hmem, if_neg (by simp [hmem])]
      omega

/--
C1: The Merger is an inner join of the loaded trade and sentiment frames
on the `Date` key: every merged row is built from exactly one (trade row,
sentiment row) pair with equal `Date` cells; the merged row count equals
the number of such pairs; every merged row's date occurs on both sides
(so trades without a matching sentiment date and sentiment rows without a
matching trade date are dropped); and when the sentiment dates are
pairwise distinct the merged row count equals the number of trade rows
whose date occurs in the sentiment set.
-/
theorem merge_inner_join_spec (t f : DF) :
    (∀ mr ∈ (mergeOn t f).rows, ∃ tr ∈ t.rows, ∃ fr ∈ f.rows,
        fr.lookup "Date" = tr.lookup "Date" ∧
        mr = tr ++ fr.filter (fun kv => kv.1 ≠ "Date")) ∧
    ((mergeOn t f).rows.length =
      ((t.rows ×ˢ f.rows).filter
        (fun p => p.2.lookup "Date" == p.1.lookup "Date")).length) ∧
    (∀ mr ∈ (mergeOn t f).rows,
        mr.lookup "Date" ∈ t.rows.map (fun r => r.lookup "Date") ∧
        mr.lookup "Date" ∈ f.rows.map (fun r => r.lookup "Date")) ∧
    ((f.rows.map (fun r => r.lookup "Date")).Nodup →
      (mergeOn t f).rows.length =
        (t.rows.filter (fun tr =>
          decide (tr.lookup "Date" ∈ f.rows.map (fun r => r.lookup "Date")))).length) := by
  refine ⟨?_, mergeRows_length_pairs f.rows t.rows, ?_,
    fun hn => mergeRows_length_nodup f.rows hn t.rows⟩
  · intro mr hmr
    simp only [mergeOn, List.mem_flatMap, List.mem_map, List.mem_filter] at hmr
    obtain ⟨tr, htr, fr, ⟨hfr, hdq⟩, rfl⟩ := hmr
    exact ⟨tr, htr, fr, hfr, eq_of_beq hdq, rfl⟩
  · intro mr hmr
    simp only [mergeOn, List.mem_flatMap, List.mem_map, List.mem_filter] at hmr
    obtain ⟨tr, htr, fr, ⟨hfr, hdq⟩, rfl⟩ := hmr
    have hDate := lookup_mergedRow_Date tr fr
    constructor
    · rw [hDate]
      exact List.mem_map.mpr ⟨tr, htr, rfl⟩
    · rw [hDate, ← eq_of_beq hdq]
      exact List.mem_map.mpr ⟨fr, hfr, rfl⟩

/-- Witness for C1: two trade rows (dates 1 and 9) against one sentiment
row (date 1, distinct dates); the merged count is the count of trade rows
whose date occurs in the sentiment set. -/
theorem merge_inner_join_spec_witness :
    (mergeOn
        { cols := ["Date"], rows := [[("Date", Cell.date 1)], [("Date", Cell.date 9)]] }
        { cols := ["Date", "Classification"],
          rows := [[("Date", Cell.date 1), ("Classification", Cell.str "Fear")]] }).rows.length =
      (([[("Date", Cell.date 1)], [("Date", Cell.date 9)]] : List Row).filter (fun tr =>
        decide (tr.lookup "Date" ∈
          ([[("Date", Cell.date 1), ("Classification", Cell.str "Fear")]] : List Row).map
            (fun r => r.lookup "Date")))).length :=
  (merge_inner_join_spec
    { cols := ["Date"], rows := [[("Date", Cell.date 1)], [("Date", Cell.date 9)]] }
    { cols := ["Date", "Classification"],
      rows := [[("Date", Cell.date 1), ("Classification", Cell.str "Fear")]] }).2.2.2
    (by decide)
